import Mathlib

/-!
Shallow embedding of the ICP relay session (`session.cpp`) and the parts of
the relay coordinator it drives.  Pure data is modelled directly; the
side-effecting calls (async writes, application-loop posts, socket closes)
are reified as an explicit list of `Effect`s returned next to the updated
session state, in the order the source performs them.
-/

set_option maxHeartbeats 1000000

namespace Icp

/-- Raw byte strings on the wire, one `Nat` per byte; the byte width is
irrelevant to every verified property. -/
abbrev Bytes := List Nat

/-- Model of `fc::sha256` digests as naturals; the default-constructed empty
digest `fc::sha256()` is `0`. -/
abbrev Digest := Nat

/-- Value of the default-constructed `fc::sha256()`, which the session uses as
the distinguished "no ping outstanding" marker. -/
def sha256_empty : Digest := 0

/-- Model of `fc::sha256::hash(time_point)` in `send_ping`.  The session only
relies on a fresh hash differing from the empty digest, so `t + 1` models a
collision-free hash of the timestamp. -/
def sha256_hash_time (t : Nat) : Digest := t + 1

/-- Microsecond count of `fc::seconds(3)`, the ping interval. -/
def seconds3 : Nat := 3000000

/-- Message `hello{id, chain_id, contract, peer_contract}`. -/
structure HelloMsg where
  id : Digest
  chain_id : Digest
  contract : Nat
  peer_contract : Nat
deriving DecidableEq, Repr

/-- Message `ping{sent, code, head}`; also the type of the session fields
`last_sent_ping_` and `last_recv_ping_`.  The carried head is opaque here. -/
structure PingMsg where
  sent : Nat := 0
  code : Digest := sha256_empty
  head : Nat := 0
deriving DecidableEq, Repr

/-- Message `pong{sent, code}` echoing a ping code. -/
structure PongMsg where
  sent : Nat
  code : Digest
deriving DecidableEq, Repr

/-- Message `channel_seed{seed}` carrying packed trust-seed bytes. -/
structure ChannelSeedMsg where
  seed : Bytes
deriving DecidableEq, Repr

/-- Block header as the session sees it: its number plus the remaining fields,
which the session treats as opaque payload. -/
structure BlockHeaderMsg where
  block_num : Nat
  body : Nat
deriving DecidableEq, Repr

/-- Model of `block_header::id()`: an injective digest of the header that, as
on the real chain, embeds the block number recoverably. -/
def header_id (h : BlockHeaderMsg) : Digest := Nat.pair h.block_num h.body

/-- Model of `block_header::num_from_id`: recover the block number embedded in
a block id. -/
def num_from_id (id : Digest) : Nat := id.unpair.1

/-- Message `block_header_with_merkle_path{block_header, merkle_path}`. -/
structure BlockHeaderWithMerklePathMsg where
  block_header : BlockHeaderMsg
  merkle_path : List Digest
deriving DecidableEq, Repr

/-- Message `icp_actions{block_header, peer_actions, actions, action_receipts,
action_digests}`.  Entries of `actions` and `action_receipts` are opaque
packed blobs; `peer_actions` holds action names. -/
structure IcpActionsMsg where
  block_header : BlockHeaderMsg
  peer_actions : List Nat
  actions : List Bytes
  action_receipts : List Bytes
  action_digests : List Digest
deriving DecidableEq, Repr

/-- Tagged union `icp_message`, variants in the source's declaration order. -/
inductive IcpMessage
  | hello (h : HelloMsg)
  | ping (p : PingMsg)
  | pong (p : PongMsg)
  | channel_seed (s : ChannelSeedMsg)
  | block_header_with_merkle_path (b : BlockHeaderWithMerklePathMsg)
  | icp_actions (ia : IcpActionsMsg)
deriving DecidableEq, Repr

/-- Modelled from the spec: the host codec `fc::raw` is an opaque serializer
over a fixed schema (it is not part of the repository's files), so packing a
byte vector is modelled as length-prefixed flattening. -/
def fc_raw_pack_bytes (b : Bytes) : Bytes := b.length :: b

/-- Modelled from the spec: `fc::raw::pack` of a block header, opaque codec. -/
def fc_raw_pack_header (h : BlockHeaderMsg) : Bytes := [h.block_num, h.body]

/-- Modelled from the spec: `fc::raw::pack` of a whole
`block_header_with_merkle_path`, opaque codec. -/
def fc_raw_pack_bhwmp (b : BlockHeaderWithMerklePathMsg) : Bytes :=
  fc_raw_pack_header b.block_header ++ b.merkle_path.length :: b.merkle_path

/-- Argument structure `icp_action{action_bytes, receipt_bytes, block_id,
action_digests}` of the on-chain actions the relay pushes. -/
structure IcpActionArg where
  action_bytes : Bytes
  receipt_bytes : Bytes
  block_id : Digest
  action_digests : List Digest
deriving DecidableEq, Repr

/-- Modelled from the spec: `fc::raw::pack` of an `icp_action`, opaque codec. -/
def fc_raw_pack_icp_action (a : IcpActionArg) : Bytes :=
  fc_raw_pack_bytes a.action_bytes ++ fc_raw_pack_bytes a.receipt_bytes ++
    a.block_id :: a.action_digests.length :: a.action_digests

/-- Tag of each `icp_message` variant, in declaration order. -/
def tagOf : IcpMessage → Nat
  | .hello _ => 0
  | .ping _ => 1
  | .pong _ => 2
  | .channel_seed _ => 3
  | .block_header_with_merkle_path _ => 4
  | .icp_actions _ => 5

/-- Payload bytes of a message under the modelled codec. -/
def payloadOf : IcpMessage → Bytes
  | .hello h => [h.id, h.chain_id, h.contract, h.peer_contract]
  | .ping p => [p.sent, p.code, p.head]
  | .pong p => [p.sent, p.code]
  | .channel_seed s => fc_raw_pack_bytes s.seed
  | .block_header_with_merkle_path b => fc_raw_pack_bhwmp b
  | .icp_actions ia =>
      fc_raw_pack_header ia.block_header ++ ia.peer_actions ++
        (ia.actions.map fc_raw_pack_bytes).flatten ++
        (ia.action_receipts.map fc_raw_pack_bytes).flatten ++ ia.action_digests

/-- Modelled from the spec: the wire frame of one `icp_message` is its tag
followed by its payload (tag-per-variant framing, opaque payload codec). -/
def packMessage (m : IcpMessage) : Bytes := tagOf m :: payloadOf m

/-- One action of a transaction the relay submits to the local chain. -/
structure ChainAction where
  name : Nat
  data : Bytes
deriving DecidableEq, Repr

/-- Modelled from the spec: the action-name constants `ACTION_OPENCHANNEL`,
`ACTION_ADDBLOCKS`, `ACTION_ADDBLOCK` are declared in `icp_relay.hpp`, which
is not among the repository's files; they are opaque distinct names. -/
def ACTION_OPENCHANNEL : Nat := 1

/-- Modelled from the spec: see `ACTION_OPENCHANNEL`. -/
def ACTION_ADDBLOCKS : Nat := 2

/-- Modelled from the spec: see `ACTION_OPENCHANNEL`. -/
def ACTION_ADDBLOCK : Nat := 3

/-- WebSocket close codes the session uses. -/
inductive CloseCode
  | badPayload
deriving DecidableEq, Repr

/-- Reified side effects of the session code, in source order:
`startWrite m` is the `async_write` of `out_buffer_` started by
`session::send()` (the buffer then holds `packMessage m`);
`postTransaction` is a post of `relay_->push_transaction` to the application
loop; `setPeerHead` the post updating `relay_->peer_head_`; `closeSession`
is `ws_->next_layer().close()`; `closeWs c` is `ws_->close(c)`;
`postDedupScan` is the application-loop post made by
`check_for_redundant_connection`; `postRearmRead` is `wait_on_app`'s post
that re-arms the read from the application loop; `directRead` would be an
immediate `async_read` issued straight from an I/O continuation - the read
path never emits it. -/
inductive Effect
  | startWrite (m : IcpMessage)
  | postTransaction (acts : List ChainAction)
  | setPeerHead (h : Nat)
  | closeSession
  | closeWs (c : CloseCode)
  | postDedupScan (peer : Digest)
  | postRearmRead
  | directRead
deriving DecidableEq, Repr

/-- Enumeration `state_ : {idle_state, sending_state}` of the session. -/
inductive SendState
  | idle_state
  | sending_state
deriving DecidableEq, Repr

/-- Per-session mutable state, the fields of `class session` the sources
read or write.  `recv_remote_hello_` and `sent_remote_hello_` are only read
in the sources; their setters live in the missing `session.hpp` and are
modelled from the spec (see `on_hello` and `do_hello`). -/
structure SState where
  state_ : SendState := .idle_state
  out_buffer_ : Bytes := []
  msg_buffer_ : List IcpMessage := []
  recv_remote_hello_ : Bool := false
  sent_remote_hello_ : Bool := false
  last_sent_ping_ : PingMsg := {}
  last_recv_ping_ : PingMsg := {}
  last_recv_ping_time_ : Nat := 0
  peer_id_ : Digest := 0
  local_head_ : Nat := 0
deriving DecidableEq, Repr

/-- Environment the session reads through `relay_` and the application:
the local chain id, the relay's own id and the two contract names. -/
structure Env where
  chain_id : Digest
  relay_id : Digest
  local_contract : Nat
  peer_contract : Nat
deriving DecidableEq, Repr

/-- Combination of `session::send(const icp_message&)` and `session::send()`:
pack the message into `out_buffer_`, enter `sending_state` and start exactly
one `async_write` of the buffer. -/
def sendMessage (s : SState) (m : IcpMessage) : SState × List Effect :=
  ({ s with out_buffer_ := packMessage m, state_ := .sending_state },
   [Effect.startWrite m])

/-- `session::send_ping()`: below the 3 second interval report nothing to do;
past it, send a fresh ping only when no ping is outstanding
(`last_sent_ping_.code == fc::sha256()`), but report the slot as taken either
way. -/
def send_ping (now : Nat) (s : SState) : Bool × SState × List Effect :=
  if now - s.last_sent_ping_.sent < seconds3 then (false, s, [])
  else if s.last_sent_ping_.code = sha256_empty then
    let p : PingMsg := { sent := now, code := sha256_hash_time now, head := s.local_head_ }
    let r := sendMessage { s with last_sent_ping_ := p } (.ping p)
    (true, r.1, r.2)
  else (true, s, [])

/-- `session::send_pong()`: nothing to do unless a received ping is pending;
otherwise echo its code and reset `last_recv_ping_.code`. -/
def send_pong (now : Nat) (s : SState) : Bool × SState × List Effect :=
  if s.last_recv_ping_.code = sha256_empty then (false, s, [])
  else
    let r := sendMessage s (.pong { sent := now, code := s.last_recv_ping_.code })
    (true, { r.1 with last_recv_ping_ := { r.1.last_recv_ping_ with code := sha256_empty } },
     r.2)

/-- `session::maybe_send_next_message()`, the send pump: bail out while a
write is in flight, while `out_buffer_` is non-empty or before the hello
exchange finished; otherwise try pong, then ping, then one queued message. -/
def maybe_send_next_message (now : Nat) (s : SState) : SState × List Effect :=
  if s.state_ = .sending_state then (s, [])
  else if s.out_buffer_ ≠ [] then (s, [])
  else if !s.recv_remote_hello_ || !s.sent_remote_hello_ then (s, [])
  else
    let rpong := send_pong now s
    if rpong.1 then (rpong.2.1, rpong.2.2)
    else
      let rping := send_ping now rpong.2.1
      if rping.1 then (rping.2.1, rping.2.2)
      else
        match rping.2.1.msg_buffer_ with
        | [] => (rping.2.1, [])
        | m :: rest =>
          let r := sendMessage rping.2.1 m
          ({ r.1 with msg_buffer_ := rest }, r.2)

/-- `session::do_hello()`: send `hello{relay id, local chain id, contracts}`.
Setting `sent_remote_hello_` here is Modelled from the spec: both sides send a
`hello` immediately after transport is up, and the flag's setter is in the
missing `session.hpp`. -/
def do_hello (env : Env) (s : SState) : SState × List Effect :=
  let msg : HelloMsg :=
    { id := env.relay_id, chain_id := env.chain_id,
      contract := env.local_contract, peer_contract := env.peer_contract }
  let r := sendMessage s (.hello msg)
  ({ r.1 with sent_remote_hello_ := true }, r.2)

/-- Handler `session::on(const hello&)`: wrong chain id or a connection to
self closes the transport; otherwise record the peer id and post the
coordinator's redundancy scan.  Setting `recv_remote_hello_` is Modelled from
the spec (hello exchange completion; the setter is in the missing
`session.hpp`). -/
def on_hello (env : Env) (s : SState) (hi : HelloMsg) : SState × List Effect :=
  if hi.chain_id ≠ env.chain_id then (s, [Effect.closeSession])
  else if hi.id = env.relay_id then (s, [Effect.closeSession])
  else
    ({ s with peer_id_ := hi.id, recv_remote_hello_ := true },
     [Effect.postDedupScan hi.id])

/-- Handler `session::on(const ping&)`: record the ping and its arrival time,
post the peer-head update to the application loop. -/
def on_ping (now : Nat) (s : SState) (p : PingMsg) : SState × List Effect :=
  ({ s with last_recv_ping_ := p, last_recv_ping_time_ := now },
   [Effect.setPeerHead p.head])

/-- Handler `session::on(const pong&)`: a code differing from the last sent
ping's closes the session; a match resets the outstanding-ping marker. -/
def on_pong (s : SState) (p : PongMsg) : SState × List Effect :=
  if p.code ≠ s.last_sent_ping_.code then (s, [Effect.closeSession])
  else ({ s with last_sent_ping_ := { s.last_sent_ping_ with code := sha256_empty } }, [])

/-- Handler `session::on(const channel_seed&)`: pack the seed and post one
`openchannel` transaction. -/
def on_channel_seed (msg : ChannelSeedMsg) : List Effect :=
  [Effect.postTransaction [⟨ACTION_OPENCHANNEL, fc_raw_pack_bytes msg.seed⟩]]

/-- Local head as `relay_->get_read_only_api().get_head()` returns it. -/
structure HeadState where
  head_block_num : Nat
deriving DecidableEq, Repr

/-- First block number of the implied batch, as
`session::on(const block_header_with_merkle_path&)` computes it: the header's
own number, unless the merkle path is non-empty, in which case the number
embedded in the path's front id. -/
def first_num (b : BlockHeaderWithMerklePathMsg) : Nat :=
  match b.merkle_path with
  | [] => b.block_header.block_num
  | x :: _ => num_from_id x

/-- Handler `session::on(const block_header_with_merkle_path&)`: with no
local head, or a first block number other than `head + 1`, log and do
nothing; otherwise post one `addblocks` transaction with the packed message. -/
def on_block_header_with_merkle_path (head : Option HeadState)
    (b : BlockHeaderWithMerklePathMsg) : List Effect :=
  match head with
  | none => []
  | some hd =>
    if first_num b ≠ hd.head_block_num + 1 then []
    else [Effect.postTransaction [⟨ACTION_ADDBLOCKS, fc_raw_pack_bhwmp b⟩]]

/-- Index list of the loop `for (size_t i = 0; i < ia.peer_actions.size(); ++i)`
in `session::on(const icp_actions&)`; each iteration reads `ia.actions[i]` and
`ia.action_receipts[i]` with no preceding length check. -/
def icp_actions_indexed (ia : IcpActionsMsg) : List Nat :=
  List.range ia.peer_actions.length

/-- Handler `session::on(const icp_actions&)`: post one `addblock` carrying
the packed header, then, per entry of `peer_actions`, post one transaction
named by it whose data packs `icp_action{actions[i], action_receipts[i],
block id, action_digests}`. -/
def on_icp_actions (ia : IcpActionsMsg) : List Effect :=
  let block_id := header_id ia.block_header
  Effect.postTransaction [⟨ACTION_ADDBLOCK, fc_raw_pack_header ia.block_header⟩] ::
    (icp_actions_indexed ia).map (fun i =>
      Effect.postTransaction
        [⟨ia.peer_actions.getD i 0,
          fc_raw_pack_icp_action
            ⟨fc_raw_pack_bytes (ia.actions.getD i []),
             fc_raw_pack_bytes (ia.action_receipts.getD i []),
             block_id, ia.action_digests⟩⟩])

/-- Tags the switch in `session::on_message` has a case for. -/
def dispatchHandled : IcpMessage → Bool
  | .hello _ => true
  | .ping _ => true
  | .pong _ => true
  | _ => false

/-- `session::on_message`: dispatch on the tag - the switch has cases for
`hello`, `ping` and `pong` only, every other tag hits `default` and closes
the websocket with `bad_payload`; after a dispatched case the send pump
runs. -/
def on_message (env : Env) (now : Nat) (s : SState) (m : IcpMessage) :
    SState × List Effect :=
  match m with
  | .hello h =>
    let r := on_hello env s h
    let r2 := maybe_send_next_message now r.1
    (r2.1, r.2 ++ r2.2)
  | .ping p =>
    let r := on_ping now s p
    let r2 := maybe_send_next_message now r.1
    (r2.1, r.2 ++ r2.2)
  | .pong p =>
    let r := on_pong s p
    let r2 := maybe_send_next_message now r.1
    (r2.1, r.2 ++ r2.2)
  | _ => (s, [Effect.closeWs CloseCode.badPayload])

/-- Success path of the read-completion continuation in `session::do_read`,
parametric in the opaque decoder `dec` standing for `fc::raw::unpack`
(`dec buf = some (m, n)` meaning one message `m` decoded consuming `n` bytes,
`ds.tellp() = n`): hand the one decoded message to `on_message`, consume the
decoded bytes, then re-arm the read through `wait_on_app`'s application-loop
post.  A decode failure is the thrown-exception path: close with
`bad_payload`. -/
def on_read_success (env : Env) (dec : Bytes → Option (IcpMessage × Nat))
    (now : Nat) (s : SState) (buf : Bytes) : SState × Bytes × List Effect :=
  match dec buf with
  | some (m, n) =>
    let r := on_message env now s m
    (r.1, buf.drop n, r.2 ++ [Effect.postRearmRead])
  | none => (s, buf, [Effect.closeWs CloseCode.badPayload])

/-- Success path of the `async_write` completion handler inside
`session::send()`: return to `idle_state`, clear `out_buffer_` and re-invoke
the send pump. -/
def on_write_ok (now : Nat) (s : SState) : SState × List Effect :=
  maybe_send_next_message now { s with state_ := .idle_state, out_buffer_ := [] }

/-- One registered session as the coordinator's registry sees it: its
monotonically assigned `session_id_` (so an older session has the smaller id)
and its `peer_id_`. -/
structure Sess where
  sid : Nat
  peer_id : Digest
deriving DecidableEq, Repr

/-- The scan `session::check_for_redundant_connection` posts: over every
registered session `t`, if `t` is a different object with the same
`peer_id_`, call `self->close()`.  The result is the list of session ids the
scan closes - `[self]` when some other session shares the peer id, nothing
otherwise. -/
def dedup_closed (registry : List Sess) (self : Sess) : List Nat :=
  if registry.any (fun t => t.sid != self.sid && t.peer_id == self.peer_id)
  then [self.sid] else []

/-- Registry remaining after the redundancy scan ran for `self`. -/
def dedup_survivors (registry : List Sess) (self : Sess) : List Sess :=
  registry.filter (fun t => decide (t.sid ∉ dedup_closed registry self))

/-- Number of `async_write` starts among a list of effects. -/
def writeCount (l : List Effect) : Nat :=
  (l.filter fun e => match e with | .startWrite _ => true | _ => false).length

/-- Sample environment for concrete witnesses. -/
def env0 : Env := ⟨0, 0, 0, 0⟩

/-- Freshly constructed session state (every field at its initializer). -/
def sInit : SState := {}

theorem writeCount_append (a b : List Effect) :
    writeCount (a ++ b) = writeCount a + writeCount b := by
  simp [writeCount, List.filter_append]

theorem pump_guard (now : Nat) (s : SState)
    (h : s.state_ = .sending_state ∨ s.out_buffer_ ≠ []) :
    maybe_send_next_message now s = (s, []) := by
  unfold maybe_send_next_message
  rcases h with h | h
  · rw [if_pos h]
  · by_cases h1 : s.state_ = .sending_state
    · rw [if_pos h1]
    · rw [if_neg h1, if_pos h]

/-- Case analysis of the send pump: either it does nothing and leaves the
state unchanged, or it starts exactly one write, entering `sending_state`
from an idle state with an empty out-buffer. -/
theorem pump_spec (now : Nat) (s : SState) :
    maybe_send_next_message now s = (s, []) ∨
    ∃ m s1, maybe_send_next_message now s = (s1, [Effect.startWrite m]) ∧
      s1.state_ = .sending_state ∧ s.state_ = .idle_state ∧ s.out_buffer_ = [] := by
  by_cases h1 : s.state_ = .sending_state
  · exact Or.inl (pump_guard now s (Or.inl h1))
  by_cases h2 : s.out_buffer_ ≠ []
  · exact Or.inl (pump_guard now s (Or.inr h2))
  have hidle : s.state_ = .idle_state := by
    cases hst : s.state_
    · rfl
    · exact absurd hst h1
  have hbuf : s.out_buffer_ = [] := not_not.mp h2
  by_cases h3 : (!s.recv_remote_hello_ || !s.sent_remote_hello_) = true
  · left
    unfold maybe_send_next_message
    rw [if_neg h1, if_neg h2, if_pos h3]
  have hr : s.recv_remote_hello_ = true := by
    cases hv : s.recv_remote_hello_ <;> simp_all
  have hs2 : s.sent_remote_hello_ = true := by
    cases hv : s.sent_remote_hello_ <;> simp_all
  by_cases h4 : s.last_recv_ping_.code = sha256_empty
  · by_cases h5 : now - s.last_sent_ping_.sent < seconds3
    · cases hmb : s.msg_buffer_ with
      | nil =>
        left
        simp [maybe_send_next_message, send_pong, send_ping, hidle, hbuf, hr, hs2,
              h4, h5, hmb]
      | cons m rest =>
        right
        refine ⟨m, { s with out_buffer_ := packMessage m, state_ := .sending_state,
                            msg_buffer_ := rest }, ?_, rfl, hidle, hbuf⟩
        simp [maybe_send_next_message, send_pong, send_ping, sendMessage, hidle, hbuf,
              hr, hs2, h4, h5, hmb]
    · by_cases h6 : s.last_sent_ping_.code = sha256_empty
      · right
        refine ⟨.ping ⟨now, sha256_hash_time now, s.local_head_⟩,
          { s with last_sent_ping_ := ⟨now, sha256_hash_time now, s.local_head_⟩,
                   out_buffer_ := packMessage (.ping ⟨now, sha256_hash_time now, s.local_head_⟩),
                   state_ := .sending_state }, ?_, rfl, hidle, hbuf⟩
        simp [maybe_send_next_message, send_pong, send_ping, sendMessage, hidle, hbuf,
              hr, hs2, h4, h5, h6]
      · left
        simp [maybe_send_next_message, send_pong, send_ping, hidle, hbuf, hr, hs2,
              h4, h5, h6]
  · right
    refine ⟨.pong ⟨now, s.last_recv_ping_.code⟩,
      { s with out_buffer_ := packMessage (.pong ⟨now, s.last_recv_ping_.code⟩),
               state_ := .sending_state,
               last_recv_ping_ := { s.last_recv_ping_ with code := sha256_empty } },
      ?_, rfl, hidle, hbuf⟩
    simp [maybe_send_next_message, send_pong, sendMessage, hidle, hbuf, hr, hs2, h4]

theorem pump_writeCount_le_one (now : Nat) (s : SState) :
    writeCount (maybe_send_next_message now s).2 ≤ 1 := by
  rcases pump_spec now s with h | ⟨m, s1, h, _⟩ <;> simp [h, writeCount]

/-- The three dispatched handlers touch neither `state_` nor `out_buffer_`
and start no write themselves. -/
theorem handler_frame (env : Env) (now : Nat) (s : SState) :
    (∀ hi, (on_hello env s hi).1.state_ = s.state_ ∧
      (on_hello env s hi).1.out_buffer_ = s.out_buffer_ ∧
      writeCount (on_hello env s hi).2 = 0) ∧
    (∀ p, (on_ping now s p).1.state_ = s.state_ ∧
      (on_ping now s p).1.out_buffer_ = s.out_buffer_ ∧
      writeCount (on_ping now s p).2 = 0) ∧
    (∀ p, (on_pong s p).1.state_ = s.state_ ∧
      (on_pong s p).1.out_buffer_ = s.out_buffer_ ∧
      writeCount (on_pong s p).2 = 0) := by
  refine ⟨fun hi => ?_, fun p => ?_, fun p => ?_⟩
  · unfold on_hello
    split_ifs <;> simp [writeCount]
  · simp [on_ping, writeCount]
  · unfold on_pong
    split_ifs <;> simp [writeCount]

/-- Glue fact for a dispatched case of `on_message`: a frame-preserving
handler result followed by the pump keeps the write-count discipline. -/
theorem dispatch_glue (now : Nat) (s : SState) (E : SState × List Effect)
    (e1 : E.1.state_ = s.state_) (e2 : E.1.out_buffer_ = s.out_buffer_)
    (e3 : writeCount E.2 = 0) :
    writeCount (E.2 ++ (maybe_send_next_message now E.1).2) ≤ 1 ∧
    (0 < writeCount (E.2 ++ (maybe_send_next_message now E.1).2) →
      (maybe_send_next_message now E.1).1.state_ = .sending_state ∧
      s.state_ = .idle_state ∧ s.out_buffer_ = []) ∧
    (writeCount (E.2 ++ (maybe_send_next_message now E.1).2) = 0 →
      (maybe_send_next_message now E.1).1.state_ = s.state_ ∧
      (maybe_send_next_message now E.1).1.out_buffer_ = s.out_buffer_) := by
  rcases pump_spec now E.1 with hp | ⟨mm, s1, hp, w1, w2, w3⟩
  · rw [hp]
    refine ⟨?_, ?_, ?_⟩
    · rw [writeCount_append, e3]
      simp [writeCount]
    · intro hw
      rw [writeCount_append, e3] at hw
      simp [writeCount] at hw
    · intro _
      exact ⟨e1, e2⟩
  · rw [hp]
    refine ⟨?_, ?_, ?_⟩
    · rw [writeCount_append, e3]
      simp [writeCount]
    · intro _
      refine ⟨w1, ?_, ?_⟩
      · rw [← e1]; exact w2
      · rw [← e2]; exact w3
    · intro h0
      exfalso
      rw [writeCount_append, e3] at h0
      simp [writeCount] at h0

/-- Write-count discipline of `on_message`: at most one write starts, a write
only starts out of an idle state with an empty out-buffer, and a dispatch
that starts no write leaves `state_` and `out_buffer_` as they were. -/
theorem on_message_spec (env : Env) (now : Nat) (s : SState) (m : IcpMessage) :
    writeCount (on_message env now s m).2 ≤ 1 ∧
    (0 < writeCount (on_message env now s m).2 →
      (on_message env now s m).1.state_ = .sending_state ∧
      s.state_ = .idle_state ∧ s.out_buffer_ = []) ∧
    (writeCount (on_message env now s m).2 = 0 →
      (on_message env now s m).1.state_ = s.state_ ∧
      (on_message env now s m).1.out_buffer_ = s.out_buffer_) := by
  obtain ⟨fh, fp, fq⟩ := handler_frame env now s
  cases m with
  | hello h =>
    obtain ⟨e1, e2, e3⟩ := fh h
    simpa only [on_message] using dispatch_glue now s (on_hello env s h) e1 e2 e3
  | ping p =>
    obtain ⟨e1, e2, e3⟩ := fp p
    simpa only [on_message] using dispatch_glue now s (on_ping now s p) e1 e2 e3
  | pong p =>
    obtain ⟨e1, e2, e3⟩ := fq p
    simpa only [on_message] using dispatch_glue now s (on_pong s p) e1 e2 e3
  | channel_seed c => simp [on_message, writeCount]
  | block_header_with_merkle_path b => simp [on_message, writeCount]
  | icp_actions ia => simp [on_message, writeCount]

/-- No path of `on_message` issues a read directly. -/
theorem on_message_no_directRead (env : Env) (now : Nat) (s : SState) (m : IcpMessage) :
    Effect.directRead ∉ (on_message env now s m).2 := by
  have pump : ∀ s2, Effect.directRead ∉ (maybe_send_next_message now s2).2 := by
    intro s2
    rcases pump_spec now s2 with h | ⟨mm, s1, h, _⟩ <;> simp [h]
  cases m with
  | hello h =>
    have hp := pump (on_hello env s h).1
    unfold on_message on_hello
    unfold on_hello at hp
    split_ifs at hp ⊢ <;> simp_all
  | ping p =>
    have hp := pump (on_ping now s p).1
    simp_all [on_message, on_ping]
  | pong p =>
    have hp := pump (on_pong s p).1
    unfold on_message on_pong
    unfold on_pong at hp
    split_ifs at hp ⊢ <;> simp_all
  | channel_seed c => simp [on_message]
  | block_header_with_merkle_path b => simp [on_message]
  | icp_actions ia => simp [on_message]

/-- C3: a `channel_seed` received on a session is not dispatched to its
handler: `on_message`'s switch has no case for it and closes the websocket
with `bad_payload` instead, posting nothing; the handler
`session::on(const channel_seed&)`, were it invoked, would post exactly one
transaction with an `openchannel` action whose data is the packed seed. -/
theorem c3_channel_seed_dispatch (env : Env) (now : Nat) (s : SState)
    (cs : ChannelSeedMsg) :
    on_message env now s (.channel_seed cs) = (s, [Effect.closeWs CloseCode.badPayload]) ∧
    on_channel_seed cs =
      [Effect.postTransaction [⟨ACTION_OPENCHANNEL, fc_raw_pack_bytes cs.seed⟩]] :=
  ⟨rfl, rfl⟩

/-- C4: after a successful read, the session decodes one message from the
buffer, hands exactly that message to `on_message`, consumes exactly the
decoded byte count from the buffer, and re-arms the read via the
application-loop post of `wait_on_app`, never by a direct read. -/
theorem c4_read_loop (env : Env) (dec : Bytes → Option (IcpMessage × Nat))
    (now : Nat) (s : SState) (buf : Bytes) (m : IcpMessage) (n : Nat)
    (h : dec buf = some (m, n)) :
    on_read_success env dec now s buf =
      ((on_message env now s m).1, buf.drop n,
        (on_message env now s m).2 ++ [Effect.postRearmRead]) ∧
    (buf.drop n).length = buf.length - n ∧
    Effect.postRearmRead ∈ (on_read_success env dec now s buf).2.2 ∧
    Effect.directRead ∉ (on_read_success env dec now s buf).2.2 := by
  have he : on_read_success env dec now s buf =
      ((on_message env now s m).1, buf.drop n,
        (on_message env now s m).2 ++ [Effect.postRearmRead]) := by
    simp [on_read_success, h]
  refine ⟨he, List.length_drop _ _, ?_, ?_⟩
  · rw [he]
    simp
  · rw [he]
    intro hmem
    rcases List.mem_append.mp hmem with hm | hm
    · exact on_message_no_directRead env now s m hm
    · simp at hm

/-- Decoder sample for the C4 witness: one message, one byte consumed. -/
def dec0 : Bytes → Option (IcpMessage × Nat) := fun _ => some (.ping {}, 1)

/-- Witness for C4 at a concrete decoder, buffer and session state. -/
theorem c4_witness :
    on_read_success env0 dec0 0 sInit [9] =
      ((on_message env0 0 sInit (.ping {})).1, ([9] : Bytes).drop 1,
        (on_message env0 0 sInit (.ping {})).2 ++ [Effect.postRearmRead]) ∧
    (([9] : Bytes).drop 1).length = ([9] : Bytes).length - 1 ∧
    Effect.postRearmRead ∈ (on_read_success env0 dec0 0 sInit [9]).2.2 ∧
    Effect.directRead ∉ (on_read_success env0 dec0 0 sInit [9]).2.2 :=
  c4_read_loop env0 dec0 0 sInit [9] (.ping {}) 1 rfl

/-- C6: a received `block_header_with_merkle_path` is not dispatched to its
handler - `on_message` closes with `bad_payload`; the handler
`session::on(const block_header_with_merkle_path&)`, were it invoked, would
post exactly one `addblocks` transaction with the packed message exactly when
a local head exists and the first block number is `head + 1`, and otherwise
post nothing. -/
theorem c6_bhwmp_dispatch (env : Env) (now : Nat) (s : SState)
    (head : Option HeadState) (b : BlockHeaderWithMerklePathMsg) :
    on_message env now s (.block_header_with_merkle_path b) =
      (s, [Effect.closeWs CloseCode.badPayload]) ∧
    (∀ hd, head = some hd → first_num b = hd.head_block_num + 1 →
      on_block_header_with_merkle_path head b =
        [Effect.postTransaction [⟨ACTION_ADDBLOCKS, fc_raw_pack_bhwmp b⟩]]) ∧
    ((∀ hd, head = some hd → first_num b ≠ hd.head_block_num + 1) →
      on_block_header_with_merkle_path head b = []) := by
  refine ⟨rfl, ?_, ?_⟩
  · rintro hd rfl h
    simp [on_block_header_with_merkle_path, h]
  · intro h
    cases head with
    | none => rfl
    | some hd => simp [on_block_header_with_merkle_path, h hd rfl]

/-- C7: a received `icp_actions` is not dispatched to its handler -
`on_message` closes with `bad_payload`; the handler
`session::on(const icp_actions&)`, were it invoked, would post one `addblock`
with the packed header followed by, per index `i` below the `peer_actions`
length, one transaction named `peer_actions[i]` whose data packs
`icp_action{actions[i], action_receipts[i], header id, action_digests}`. -/
theorem c7_icp_actions_dispatch (env : Env) (now : Nat) (s : SState)
    (ia : IcpActionsMsg) :
    on_message env now s (.icp_actions ia) = (s, [Effect.closeWs CloseCode.badPayload]) ∧
    (on_icp_actions ia).length = 1 + ia.peer_actions.length ∧
    (on_icp_actions ia)[0]? =
      some (Effect.postTransaction
        [⟨ACTION_ADDBLOCK, fc_raw_pack_header ia.block_header⟩]) ∧
    (∀ i, i < ia.peer_actions.length →
      (on_icp_actions ia)[i + 1]? =
        some (Effect.postTransaction
          [⟨ia.peer_actions.getD i 0,
            fc_raw_pack_icp_action
              ⟨fc_raw_pack_bytes (ia.actions.getD i []),
               fc_raw_pack_bytes (ia.action_receipts.getD i []),
               header_id ia.block_header, ia.action_digests⟩⟩])) := by
  refine ⟨rfl, ?_, by simp [on_icp_actions], ?_⟩
  · simp [on_icp_actions, icp_actions_indexed]
    omega
  · intro i hi
    simp [on_icp_actions, icp_actions_indexed, List.getElem?_cons_succ,
          List.getElem?_map, List.getElem?_range hi]

/-- C8: a `pong` whose echoed code differs from the last sent ping's code
closes the transport; a matching code closes nothing and resets the
outstanding-ping marker to the empty digest. -/
theorem c8_pong_code_check (s : SState) (p : PongMsg) :
    (p.code ≠ s.last_sent_ping_.code → on_pong s p = (s, [Effect.closeSession])) ∧
    (p.code = s.last_sent_ping_.code →
      (on_pong s p).2 = [] ∧ (on_pong s p).1.last_sent_ping_.code = sha256_empty) := by
  unfold on_pong
  constructor
  · intro h
    rw [if_pos h]
  · intro h
    rw [if_neg (not_not.mpr h)]
    exact ⟨rfl, rfl⟩

/-- C9: any received message whose tag the switch of `on_message` has no case
for makes the session close the websocket with close code `bad_payload`. -/
theorem c9_unknown_tag_closes (env : Env) (now : Nat) (s : SState)
    (m : IcpMessage) (h : dispatchHandled m = false) :
    on_message env now s m = (s, [Effect.closeWs CloseCode.badPayload]) := by
  cases m <;> simp_all [dispatchHandled, on_message]

/-- Witness for C9 at a concrete unhandled message. -/
theorem c9_witness :
    dispatchHandled (.channel_seed ⟨[]⟩) = false ∧
    on_message env0 0 sInit (.channel_seed ⟨[]⟩) =
      (sInit, [Effect.closeWs CloseCode.badPayload]) :=
  ⟨rfl, c9_unknown_tag_closes env0 0 sInit (.channel_seed ⟨[]⟩) rfl⟩

/-- C10: the `icp_actions` handler iterates exactly the indices below the
`peer_actions` length whatever the other array lengths are (it performs no
length check), and all its accesses into `actions` and `action_receipts` are
in bounds exactly when both have length at least that of `peer_actions`. -/
theorem c10_icp_actions_index_bounds (ia : IcpActionsMsg) :
    (∀ i, i ∈ icp_actions_indexed ia ↔ i < ia.peer_actions.length) ∧
    (∀ ia2 : IcpActionsMsg, ia.peer_actions = ia2.peer_actions →
      icp_actions_indexed ia = icp_actions_indexed ia2) ∧
    ((∀ i ∈ icp_actions_indexed ia,
        i < ia.actions.length ∧ i < ia.action_receipts.length) ↔
      ia.peer_actions.length ≤ ia.actions.length ∧
      ia.peer_actions.length ≤ ia.action_receipts.length) := by
  refine ⟨fun i => List.mem_range, fun ia2 h => by simp [icp_actions_indexed, h], ?_, ?_⟩
  · intro h
    by_cases h0 : ia.peer_actions.length = 0
    · exact ⟨by omega, by omega⟩
    · obtain ⟨hb1, hb2⟩ := h (ia.peer_actions.length - 1)
        (by simp [icp_actions_indexed, List.mem_range]; omega)
      exact ⟨by omega, by omega⟩
  · rintro ⟨h1, h2⟩ i hi
    rw [icp_actions_indexed, List.mem_range] at hi
    exact ⟨by omega, by omega⟩

/-- Operational, ready-to-send pump precondition: the hello exchange is
complete, no write is in flight and the out-buffer is drained. -/
def operational (s : SState) : Prop :=
  s.state_ = .idle_state ∧ s.out_buffer_ = [] ∧
  s.recv_remote_hello_ = true ∧ s.sent_remote_hello_ = true

/-- Formalization of claim C1 as stated: on an operational pump invocation,
at most one send happens; a pending received ping yields exactly a pong; with
no pending ping, no ping in flight and the 3 second interval elapsed a fresh
ping is sent; otherwise (in particular with a ping still in flight after the
interval) a non-empty queue yields exactly one dequeued application
message. -/
def claimC1 : Prop :=
  ∀ (now : Nat) (s : SState), operational s →
    writeCount (maybe_send_next_message now s).2 ≤ 1 ∧
    (s.last_recv_ping_.code ≠ sha256_empty →
      ∃ p, (maybe_send_next_message now s).2 = [Effect.startWrite (.pong p)]) ∧
    (s.last_recv_ping_.code = sha256_empty →
      s.last_sent_ping_.code = sha256_empty →
      seconds3 ≤ now - s.last_sent_ping_.sent →
      ∃ p, (maybe_send_next_message now s).2 = [Effect.startWrite (.ping p)]) ∧
    (s.last_recv_ping_.code = sha256_empty →
      ¬ (s.last_sent_ping_.code = sha256_empty ∧ seconds3 ≤ now - s.last_sent_ping_.sent) →
      ∀ m rest, s.msg_buffer_ = m :: rest →
        (maybe_send_next_message now s).2 = [Effect.startWrite m] ∧
        (maybe_send_next_message now s).1.msg_buffer_ = rest)

/-- Operational state with a ping in flight past the 3 second interval and a
queued application message: the concrete input refuting clause (3) of C1. -/
def c1ctrState : SState :=
  { state_ := .idle_state, out_buffer_ := [],
    msg_buffer_ := [.channel_seed ⟨[]⟩],
    recv_remote_hello_ := true, sent_remote_hello_ := true,
    last_sent_ping_ := ⟨0, 5, 0⟩, last_recv_ping_ := {},
    last_recv_ping_time_ := 0, peer_id_ := 0, local_head_ := 0 }

/-- C1 as stated is false: at `c1ctrState` with `now = seconds3`, a ping is
in flight, 3 seconds have elapsed and the queue is non-empty, yet
`send_ping` claims the slot without sending and the pump sends nothing at
all, where the claim requires the queued message to go out. -/
theorem c1_counterexample : ¬ claimC1 := by
  intro h
  have h4 := (h seconds3 c1ctrState ⟨rfl, rfl, rfl, rfl⟩).2.2.2 rfl (by decide)
    (.channel_seed ⟨[]⟩) [] rfl
  have hpump : (maybe_send_next_message seconds3 c1ctrState).2 = [] := by decide
  have h5 := h4.1
  rw [hpump] at h5
  simp at h5

/-- C1 amended: the pump performs at most one send per invocation and, when
operational: (1) a pending received ping yields exactly a pong; (2) once 3
seconds have elapsed since the last ping was sent, a fresh ping goes out if
none is in flight and nothing at all otherwise - queued application messages
are deferred while a ping is unanswered past the interval; (3) below the 3
second interval, the pump dequeues and sends exactly the queue's head, and
sends nothing when the queue is empty. -/
theorem c1_send_pump_priority (now : Nat) (s : SState) :
    writeCount (maybe_send_next_message now s).2 ≤ 1 ∧
    (operational s →
      (s.last_recv_ping_.code ≠ sha256_empty →
        (maybe_send_next_message now s).2 =
          [Effect.startWrite (.pong ⟨now, s.last_recv_ping_.code⟩)]) ∧
      (s.last_recv_ping_.code = sha256_empty →
        seconds3 ≤ now - s.last_sent_ping_.sent →
        (s.last_sent_ping_.code = sha256_empty →
          (maybe_send_next_message now s).2 =
            [Effect.startWrite (.ping ⟨now, sha256_hash_time now, s.local_head_⟩)]) ∧
        (s.last_sent_ping_.code ≠ sha256_empty →
          maybe_send_next_message now s = (s, []))) ∧
      (s.last_recv_ping_.code = sha256_empty →
        now - s.last_sent_ping_.sent < seconds3 →
        (∀ m rest, s.msg_buffer_ = m :: rest →
          (maybe_send_next_message now s).2 = [Effect.startWrite m] ∧
          (maybe_send_next_message now s).1.msg_buffer_ = rest) ∧
        (s.msg_buffer_ = [] → maybe_send_next_message now s = (s, [])))) := by
  constructor
  · exact pump_writeCount_le_one now s
  · rintro ⟨hidle, hbuf, hr, hs2⟩
    refine ⟨?_, ?_, ?_⟩
    · intro hpend
      simp [maybe_send_next_message, send_pong, sendMessage, hidle, hbuf, hr, hs2, hpend]
    · intro hnop hge
      have hnl : ¬ (now - s.last_sent_ping_.sent < seconds3) := Nat.not_lt.mpr hge
      constructor
      · intro hfresh
        simp [maybe_send_next_message, send_pong, send_ping, sendMessage, hidle, hbuf,
              hr, hs2, hnop, hnl, hfresh]
      · intro hinflight
        simp [maybe_send_next_message, send_pong, send_ping, hidle, hbuf, hr, hs2,
              hnop, hnl, hinflight]
    · intro hnop hlt
      constructor
      · intro m rest hmb
        constructor <;>
          simp [maybe_send_next_message, send_pong, send_ping, sendMessage, hidle,
                hbuf, hr, hs2, hnop, hlt, hmb]
      · intro hmb
        simp [maybe_send_next_message, send_pong, send_ping, hidle, hbuf, hr, hs2,
              hnop, hlt, hmb]

/-- Formalization of claim C2 as stated: a good hello records the sender id
as `peer_id_`, and the coordinator scan closes every older session sharing
the peer id while the session that received the hello (the newer one)
remains open. -/
def claimC2 : Prop :=
  (∀ env s hi, hi.chain_id = env.chain_id → hi.id ≠ env.relay_id →
    (on_hello env s hi).1.peer_id_ = hi.id) ∧
  ∀ (reg : List Sess) (self : Sess), self ∈ reg →
    (∀ t ∈ reg, t.sid < self.sid → t.peer_id = self.peer_id →
      t.sid ∈ dedup_closed reg self) ∧
    self.sid ∉ dedup_closed reg self

/-- C2 as stated is false: with registry `[⟨1,7⟩, ⟨2,7⟩]` and the newer
session `⟨2,7⟩` running the scan, the code closes session 2 itself - the
claimed surviving newer session - and leaves the older session 1 open. -/
theorem c2_counterexample : ¬ claimC2 := by
  intro h
  have h2 := (h.2 [⟨1, 7⟩, ⟨2, 7⟩] ⟨2, 7⟩ (by decide)).2
  exact h2 (by decide)

/-- C2 amended: a good hello records the sender id as `peer_id_` and posts
the dedup scan; the scan closes the scanning session itself exactly when
another registered session shares its peer id, and never closes any other
session; hence every other session survives and, when at most one other
session shared the peer id, at most one session with that peer id remains. -/
theorem c2_dedup (env : Env) (s : SState) (hi : HelloMsg) (reg : List Sess)
    (self : Sess) (hchain : hi.chain_id = env.chain_id) (hid : hi.id ≠ env.relay_id)
    (hnodup : (reg.map Sess.sid).Nodup)
    (hatmost : ∀ t1 ∈ reg, ∀ t2 ∈ reg,
      t1.peer_id = self.peer_id → t2.peer_id = self.peer_id →
      t1.sid ≠ self.sid → t2.sid ≠ self.sid → t1 = t2) :
    on_hello env s hi =
      ({ s with peer_id_ := hi.id, recv_remote_hello_ := true },
       [Effect.postDedupScan hi.id]) ∧
    (self.sid ∈ dedup_closed reg self ↔
      ∃ t ∈ reg, t.sid ≠ self.sid ∧ t.peer_id = self.peer_id) ∧
    (∀ x ∈ dedup_closed reg self, x = self.sid) ∧
    (∀ t ∈ reg, t.sid ≠ self.sid → t ∈ dedup_survivors reg self) ∧
    (∀ t1 ∈ dedup_survivors reg self, ∀ t2 ∈ dedup_survivors reg self,
      t1.peer_id = self.peer_id → t2.peer_id = self.peer_id → t1 = t2) := by
  have hnotin : ∀ t : Sess, t.sid ≠ self.sid →
      t.sid ∉ dedup_closed reg self := by
    intro t ht
    unfold dedup_closed
    split_ifs <;> simp [ht]
  refine ⟨?_, ?_, ?_, ?_, ?_⟩
  · unfold on_hello
    rw [if_neg (not_not.mpr hchain), if_neg hid]
  · unfold dedup_closed
    by_cases hany : reg.any (fun t => t.sid != self.sid && t.peer_id == self.peer_id) = true
    · rw [if_pos hany]
      obtain ⟨t, ht, hf⟩ := List.any_eq_true.mp hany
      simp only [Bool.and_eq_true, bne_iff_ne, beq_iff_eq] at hf
      exact ⟨fun _ => ⟨t, ht, hf.1, hf.2⟩, fun _ => List.mem_singleton.mpr rfl⟩
    · rw [if_neg hany]
      simp only [List.not_mem_nil, false_iff]
      rintro ⟨t, ht, h1, h2⟩
      exact hany (List.any_eq_true.mpr ⟨t, ht, by simp [h1, h2]⟩)
  · intro x hx
    unfold dedup_closed at hx
    split_ifs at hx <;> simp_all
  · intro t ht hneq
    unfold dedup_survivors
    rw [List.mem_filter]
    exact ⟨ht, by simp [hnotin t hneq]⟩
  · intro t1 h1 t2 h2 hp1 hp2
    unfold dedup_survivors at h1 h2
    rw [List.mem_filter] at h1 h2
    by_cases hany : reg.any (fun t => t.sid != self.sid && t.peer_id == self.peer_id) = true
    · have hcl : dedup_closed reg self = [self.sid] := by
        unfold dedup_closed
        rw [if_pos hany]
      have hn1 : t1.sid ≠ self.sid := by
        have := h1.2
        rw [hcl] at this
        simpa using this
      have hn2 : t2.sid ≠ self.sid := by
        have := h2.2
        rw [hcl] at this
        simpa using this
      exact hatmost t1 h1.1 t2 h2.1 hp1 hp2 hn1 hn2
    · have hnone := List.any_eq_false.mp (Bool.not_eq_true _ |>.mp hany)
      have hs1 : t1.sid = self.sid := by
        have := hnone t1 h1.1
        simp only [Bool.and_eq_true, bne_iff_ne, beq_iff_eq, not_and] at this
        by_contra hc
        exact (this hc) hp1
      have hs2 : t2.sid = self.sid := by
        have := hnone t2 h2.1
        simp only [Bool.and_eq_true, bne_iff_ne, beq_iff_eq, not_and] at this
        by_contra hc
        exact (this hc) hp2
      exact List.inj_on_of_nodup_map hnodup h1.1 h2.1 (hs1.trans hs2.symm)

/-- Sample registry for the C2 witness: the older session 1 and newer
session 2 share peer id 7. -/
def regW : List Sess := [⟨1, 7⟩, ⟨2, 7⟩]

/-- The newer session running the scan in the C2 witness. -/
def selfW : Sess := ⟨2, 7⟩

/-- Hello message of the C2 witness: matching chain id, foreign sender id. -/
def hiW : HelloMsg := ⟨1, 0, 0, 0⟩

/-- Session-level configuration of the write-in-flight transition system:
the session state, how many `async_write`s are outstanding, whether
`do_hello` has run (reads are armed only after it), and whether the
transport was closed. -/
structure Config where
  sess : SState
  inflight : Nat
  helloStarted : Bool
  closed : Bool
deriving DecidableEq, Repr

/-- Whether a list of effects closes the transport or the websocket. -/
def hasClose (l : List Effect) : Bool :=
  l.any fun e => match e with
    | .closeSession => true
    | .closeWs _ => true
    | _ => false

/-- Fold one handler invocation's result into the configuration. -/
def applyEffects (c : Config) (s1 : SState) (effs : List Effect) : Config :=
  { c with sess := s1, inflight := c.inflight + writeCount effs,
           closed := c.closed || hasClose effs }

/-- Events of one session: transport up (`do_hello`, after which reads are
armed), write completion (success and error paths of the handler in
`session::send()`), and a completed read delivering one message. -/
inductive SEvent
  | start
  | writeOk (now : Nat)
  | writeErr
  | readOk (now : Nat) (m : IcpMessage)
deriving DecidableEq, Repr

/-- One step of the session; `none` when the event's guard cannot fire.  On a
write error the completion handler closes the transport and returns without
touching `state_` or `out_buffer_`, exactly as the source's error path. -/
def stepFn (env : Env) (c : Config) (e : SEvent) : Option Config :=
  match e with
  | .start =>
    if c.helloStarted = true ∨ c.closed = true then none
    else
      let r := do_hello env c.sess
      some (applyEffects { c with helloStarted := true } r.1 r.2)
  | .writeOk now =>
    if c.inflight = 0 ∨ c.closed = true then none
    else
      let r := on_write_ok now c.sess
      some (applyEffects { c with inflight := c.inflight - 1 } r.1 r.2)
  | .writeErr =>
    if c.inflight = 0 then none
    else some { c with inflight := c.inflight - 1, closed := true }
  | .readOk now m =>
    if c.helloStarted = false ∨ c.closed = true then none
    else
      let r := on_message env now c.sess m
      some (applyEffects c r.1 r.2)

/-- Initial configuration of a freshly accepted or connected session. -/
def initConfig : Config :=
  { sess := sInit, inflight := 0, helloStarted := false, closed := false }

/-- Configurations reachable from `initConfig` by session events. -/
inductive Reachable (env : Env) : Config → Prop
  | init : Reachable env initConfig
  | step {c e c2} : Reachable env c → stepFn env c e = some c2 → Reachable env c2

/-- Inductive invariant of the write-in-flight system. -/
def ConfigInv (c : Config) : Prop :=
  c.inflight ≤ 1 ∧
  (c.inflight = 1 → c.sess.state_ = .sending_state) ∧
  (c.sess.state_ = .idle_state → c.sess.out_buffer_ = []) ∧
  (c.helloStarted = false →
    c.sess.state_ = .idle_state ∧ c.sess.out_buffer_ = [] ∧ c.inflight = 0)

theorem configInv_init : ConfigInv initConfig := by
  refine ⟨?_, ?_, ?_, ?_⟩ <;> simp [initConfig, sInit, ConfigInv]

theorem configInv_step (env : Env) {c : Config} {e : SEvent} {c2 : Config}
    (hInv : ConfigInv c) (h : stepFn env c e = some c2) : ConfigInv c2 := by
  obtain ⟨i1, i2, i3, i4⟩ := hInv
  cases e with
  | start =>
    simp only [stepFn] at h
    split at h
    · exact absurd h (by simp)
    · next hg =>
      injection h with h
      subst h
      push_neg at hg
      obtain ⟨hidle, hbuf, hzero⟩ := i4 (by simpa using hg.1)
      refine ⟨?_, ?_, ?_, ?_⟩ <;>
        simp [applyEffects, do_hello, sendMessage, writeCount, hzero]
  | writeOk now =>
    simp only [stepFn] at h
    split at h
    · exact absurd h (by simp)
    · next hg =>
      injection h with h
      subst h
      push_neg at hg
      have hone : c.inflight = 1 := by omega
      have hhello : c.helloStarted = true := by
        by_contra hc
        have := (i4 (by simpa using hc)).2.2
        omega
      rcases pump_spec now { c.sess with state_ := .idle_state, out_buffer_ := [] }
        with hp | ⟨m, s1, hp, w1, w2, w3⟩
      · refine ⟨?_, ?_, ?_, ?_⟩ <;>
          simp [applyEffects, on_write_ok, hp, writeCount, hone, hhello]
      · refine ⟨?_, ?_, ?_, ?_⟩ <;>
          simp [applyEffects, on_write_ok, hp, writeCount, hone, hhello, w1]
  | writeErr =>
    simp only [stepFn] at h
    split at h
    · exact absurd h (by simp)
    · next hg =>
      injection h with h
      subst h
      refine ⟨by simp; omega, ?_, by simpa using i3, ?_⟩
      · intro h1
        simp at h1
        omega
      · intro h4
        simp at h4
        have := (i4 h4).2.2
        omega
  | readOk now m =>
    simp only [stepFn] at h
    split at h
    · exact absurd h (by simp)
    · next hg =>
      injection h with h
      subst h
      push_neg at hg
      have hhello : c.helloStarted = true := by simpa using hg.1
      obtain ⟨w_le, w_pos, w_zero⟩ := on_message_spec env now c.sess m
      by_cases hw : writeCount (on_message env now c.sess m).2 = 0
      · obtain ⟨z1, z2⟩ := w_zero hw
        refine ⟨?_, ?_, ?_, ?_⟩
        · simp [applyEffects, hw]
          omega
        · intro h1
          simp [applyEffects, hw] at h1
          simp [applyEffects, z1]
          exact i2 (by omega)
        · intro h3
          simp [applyEffects] at h3 ⊢
          rw [z1] at h3
          rw [z2]
          exact i3 h3
        · intro h4
          simp [applyEffects] at h4
          exact absurd h4 (by simp [hhello])
      · obtain ⟨p1, p2, p3⟩ := w_pos (Nat.pos_of_ne_zero hw)
        have hz : c.inflight = 0 := by
          by_contra hc
          have := i2 (by omega)
          rw [p2] at this
          exact absurd this (by simp)
        refine ⟨?_, ?_, ?_, ?_⟩
        · simp [applyEffects, hz]
          omega
        · intro _
          simp [applyEffects]
          exact p1
        · intro h3
          simp [applyEffects] at h3
          rw [p1] at h3
          exact absurd h3 (by simp)
        · intro h4
          simp [applyEffects] at h4
          exact absurd h4 (by simp [hhello])

theorem reachable_inv (env : Env) (c : Config) (h : Reachable env c) :
    ConfigInv c := by
  induction h with
  | init => exact configInv_init
  | step hr hs ih => exact configInv_step env ih hs

/-- C5: in every reachable session configuration at most one write is in
flight; whenever one is, the session is in `sending_state`, so a write spans
from its start to its completion handler; and the send pump - the sole
sender once the session is past `do_hello` - starts nothing while the state
is `sending_state` or the out-buffer is non-empty. -/
theorem c5_single_write_in_flight (env : Env) (c : Config)
    (h : Reachable env c) :
    c.inflight ≤ 1 ∧
    (c.inflight = 1 → c.sess.state_ = .sending_state) ∧
    (∀ now s, (s.state_ = .sending_state ∨ s.out_buffer_ ≠ []) →
      maybe_send_next_message now s = (s, [])) := by
  have hi := reachable_inv env c h
  exact ⟨hi.1, hi.2.1, fun now s hs => pump_guard now s hs⟩

/-- Witness for C5 at the initial configuration. -/
theorem c5_witness :
    initConfig.inflight ≤ 1 ∧
    (initConfig.inflight = 1 → initConfig.sess.state_ = .sending_state) ∧
    (∀ now s, (s.state_ = .sending_state ∨ s.out_buffer_ ≠ []) →
      maybe_send_next_message now s = (s, [])) :=
  c5_single_write_in_flight env0 initConfig Reachable.init

/-- Witness for C2's amended statement at a concrete registry. -/
theorem c2_witness :
    on_hello env0 sInit hiW =
      ({ sInit with peer_id_ := hiW.id, recv_remote_hello_ := true },
       [Effect.postDedupScan hiW.id]) ∧
    (selfW.sid ∈ dedup_closed regW selfW ↔
      ∃ t ∈ regW, t.sid ≠ selfW.sid ∧ t.peer_id = selfW.peer_id) ∧
    (∀ x ∈ dedup_closed regW selfW, x = selfW.sid) ∧
    (∀ t ∈ regW, t.sid ≠ selfW.sid → t ∈ dedup_survivors regW selfW) ∧
    (∀ t1 ∈ dedup_survivors regW selfW, ∀ t2 ∈ dedup_survivors regW selfW,
      t1.peer_id = selfW.peer_id → t2.peer_id = selfW.peer_id → t1 = t2) :=
  c2_dedup env0 sInit hiW regW selfW (by decide) (by decide) (by decide)
    (by decide)

end Icp
